import Mathlib

/-!
Verification development for the replicate img-to-vid batch tool.

The Python sources are shallowly embedded: pure functions become Lean
functions, Python exceptions become `Except String`, Python `None`-returning
failure paths become `Option`, and the stateful retry/poll loops become
functions over explicit lists of attempt/poll outcomes that also return the
trace of sleep durations.  Python `int`/`float` arithmetic on durations and
costs is modelled exactly, with rationals represented as canonical
numerator/denominator pairs of integers (`PyNum`) so that all definitions
are executable and kernel-reducible.
-/

/-! ## Exact numeric model for Python int/float arithmetic -/

/-- Exact rational value, kept in canonical form (positive denominator,
reduced fraction) by `pynorm`, so that structural equality is value
equality. -/
structure PyNum where
  num : ℤ
  den : ℤ
deriving DecidableEq, Repr

/-- Canonical form of the fraction n / d (for d ≠ 0): positive denominator,
fraction fully reduced. -/
def pynorm (n d : ℤ) : PyNum :=
  let s : ℤ := if d < 0 then -1 else 1
  let n2 := s * n
  let d2 := s * d
  let g : ℤ := (Int.gcd n2 d2 : ℤ)
  if g = 0 then ⟨0, 1⟩ else ⟨n2.tdiv g, d2.tdiv g⟩

def pyOfInt (n : ℤ) : PyNum := ⟨n, 1⟩

def pyMul (a b : PyNum) : PyNum := pynorm (a.num * b.num) (a.den * b.den)

def pyDivQ (a b : PyNum) : PyNum := pynorm (a.num * b.den) (a.den * b.num)

/-- Value order on canonical fractions (denominators positive). -/
def pyLt (a b : PyNum) : Prop := a.num * b.den < b.num * a.den

instance (a b : PyNum) : Decidable (pyLt a b) := by unfold pyLt; infer_instance

/-- Python `int(q)` truncates toward zero. -/
def pyTruncInt (q : PyNum) : ℤ := q.num.tdiv q.den

/-- Mathematical floor of a canonical fraction. -/
def pyFloorInt (q : PyNum) : ℤ := q.num.fdiv q.den

/-- Python `round(q)` to an integer: round-half-to-even. -/
def roundHalfEven (q : PyNum) : ℤ :=
  let f := pyFloorInt q
  let r2 := 2 * (q.num - f * q.den)
  if r2 < q.den then f
  else if q.den < r2 then f + 1
  else if f % 2 = 0 then f else f + 1

/-- Python `round(q, 4)`: round to four decimal places. -/
def roundTo4 (q : PyNum) : PyNum :=
  pynorm (roundHalfEven (pyMul q ⟨10000, 1⟩)) 10000

/-- Python `math.ceil(a / b)` for integers a, b with b > 0. -/
def ceilDiv (a b : ℤ) : ℤ := -((-a).fdiv b)

/-! ## Python string helpers (on lists of characters) -/

/-- Python's whitespace test used by `str.strip()` / `str.split()`
(ASCII subset). -/
def pySpace (c : Char) : Bool :=
  c = ' ' || c = '\t' || c = '\n' || c = '\r' || c = '\x0b' || c = '\x0c'

/-- Python `str.strip()`: drop leading and trailing whitespace. -/
def stripChars (s : List Char) : List Char :=
  ((s.dropWhile pySpace).reverse.dropWhile pySpace).reverse

/-- Worker for `pyWords`: `cur` is the current word accumulated in reverse. -/
def wordsAux : List Char → List Char → List (List Char)
  | cur, [] => if cur.isEmpty then [] else [cur.reverse]
  | cur, c :: cs =>
    if pySpace c then
      if cur.isEmpty then wordsAux [] cs else cur.reverse :: wordsAux [] cs
    else wordsAux (c :: cur) cs

/-- Python `str.split()` with no argument: split on whitespace runs,
discarding empty pieces. -/
def pyWords (s : List Char) : List (List Char) := wordsAux [] s

/-- Python `" ".join(words)`. -/
def joinSpace : List (List Char) → List Char
  | [] => []
  | [w] => w
  | w :: ws => w ++ ' ' :: joinSpace ws

/-- Python `needle in haystack` for strings (substring containment). -/
def listContainsSub (haystack needle : List Char) : Bool :=
  match haystack with
  | [] => needle.isEmpty
  | _ :: rest => needle.isPrefixOf haystack || listContainsSub rest needle

/-- Python `str.lower()` (ASCII view). -/
def pyLower (s : List Char) : List Char := s.map Char.toLower

/-- Rate-limit test from the retry loops:
`"429" in str(e) or "rate" in str(e).lower()`. -/
def isRateLimitError (e : String) : Bool :=
  listContainsSub e.data "429".data || listContainsSub (pyLower e.data) "rate".data

/-! ## Duration handler (src/processing/duration_handler.py) -/

/-- The validated duration section of a profile
(output shape of `ProfileValidator.validate_duration_section`). -/
structure DurationConfig where
  duration_type : String
  fps : ℤ
  duration_min : ℤ
  duration_max : ℤ
  duration_param_name : String
deriving DecidableEq, Repr

/-- The `adjustment_info` dictionaries built by the duration handler:
the `frames` shape carries original/adjusted frame counts, the `seconds`
shape carries the pre-conversion frame count and the pre/post-clamp second
counts plus the fps used. -/
inductive AdjInfo where
  | frames (original adjusted : ℤ) (reason : Option String)
  | seconds (original_frames original_seconds adjusted_seconds fps : ℤ)
      (reason : Option String)
deriving DecidableEq, Repr

/-- Reason string of an adjustment record. -/
def AdjInfo.reason : AdjInfo → Option String
  | .frames _ _ r => r
  | .seconds _ _ _ _ r => r

/-- Result triple of `process_duration`. -/
structure DurationResult where
  value : ℤ
  was_adjusted : Bool
  info : AdjInfo
deriving DecidableEq, Repr

/-- `_process_frame_duration` from duration_handler.py. -/
def processFrameDuration (frame_count min_frames max_frames : ℤ) : DurationResult :=
  if frame_count < min_frames then
    { value := min_frames
      was_adjusted := true
      info := .frames frame_count min_frames (some s!"Below minimum ({min_frames})") }
  else if max_frames < frame_count then
    { value := max_frames
      was_adjusted := true
      info := .frames frame_count max_frames (some s!"Exceeded maximum ({max_frames})") }
  else
    { value := frame_count
      was_adjusted := false
      info := .frames frame_count frame_count none }

/-- `_process_seconds_duration` from duration_handler.py: convert frames to
seconds rounding up, then clamp. -/
def processSecondsDuration (frame_count fps min_seconds max_seconds : ℤ) :
    DurationResult :=
  let original_seconds := ceilDiv frame_count fps
  if original_seconds < min_seconds then
    { value := min_seconds
      was_adjusted := true
      info := .seconds frame_count original_seconds min_seconds fps
        (some s!"Below minimum ({min_seconds} seconds)") }
  else if max_seconds < original_seconds then
    { value := max_seconds
      was_adjusted := true
      info := .seconds frame_count original_seconds max_seconds fps
        (some s!"Exceeded maximum ({max_seconds} seconds)") }
  else
    { value := original_seconds
      was_adjusted := false
      info := .seconds frame_count original_seconds original_seconds fps none }

/-- `process_duration` from duration_handler.py: dispatch on the profile's
duration type, raising on any other type value. -/
def process_duration (frame_count : ℤ) (cfg : DurationConfig) :
    Except String DurationResult :=
  if cfg.duration_type = "frames" then
    .ok (processFrameDuration frame_count cfg.duration_min cfg.duration_max)
  else if cfg.duration_type = "seconds" then
    .ok (processSecondsDuration frame_count cfg.fps cfg.duration_min cfg.duration_max)
  else
    let t := cfg.duration_type
    .error s!"Invalid duration_type: {t}"

/-! ## Output-shape model and URL extraction
(src/api/base_async_client.py, src/api/client.py) -/

/-- Shapes a Replicate prediction output can take, as seen by the URL
extractors: a bare string, an object exposing a `url` attribute, a list, or
some other object, carried with its `str()` rendering.  `none_` is Python
`None`. -/
inductive PyVal where
  | str (s : String)
  | urlObj (url : String)
  | list (xs : List PyVal)
  | other (strRepr : String)
  | none_

/-- Python truthiness for the output values above (`if not output`). -/
def PyVal.isFalsy : PyVal → Bool
  | .str s => s = ""
  | .list xs => xs.isEmpty
  | .none_ => true
  | .urlObj _ => false
  | .other _ => false

/-- `BaseAsyncReplicateClient._extract_output_url`: normalize the output to
a URL string, or fail with `none`. -/
def extract_output_url (output : PyVal) : Option String :=
  if output.isFalsy then none
  else
    match output with
    | .str s => some s
    | .urlObj u => some u
    | .list (first :: _) =>
      match first with
      | .urlObj u => some u
      | .str s => some s
      | _ => none
    | .list [] => none
    | .other r => if "http".data.isPrefixOf r.data then some r else none
    | .none_ => none

/-- `ReplicateClient._parse_video_response`: the synchronous client's
response parser.  A list's first element is returned as-is when it is
neither a string nor a url-carrying object, so the result is a `PyVal`. -/
def parse_video_response (result : PyVal) : Option PyVal :=
  if result.isFalsy then none
  else
    match result with
    | .str s => some (.str s)
    | .list [] => none
    | .list (first :: _) =>
      match first with
      | .urlObj u => some (.str u)
      | x => some x
    | .urlObj u => some (.str u)
    | .other r => if "http".data.isPrefixOf r.data then some (.str r) else none
    | .none_ => none

/-! ## Submission retry loops
(ReplicateClient._call_with_retry and
BaseAsyncReplicateClient._create_prediction_with_retry) -/

/-- Outcome of one submission attempt against the provider. -/
inductive Attempt where
  | ok (handle : String)
  | err (msg : String)
deriving DecidableEq, Repr

/-- Error message raised when `_call_with_retry` leaves its loop with every
attempt having hit the rate-limit branch (`str(None)` is "None"). -/
def exhaustMsg (maxRetries : ℕ) (lastError : Option String) : String :=
  let le := match lastError with | some e => e | none => "None"
  s!"Failed after {maxRetries} attempts: {le}"

/-- Loop body of `ReplicateClient._call_with_retry`.  `outcomes n` is what
the n-th API call (1-based) would do; `fuel` is the number of loop
iterations left, `attempt` the 1-based counter.  Returns the list of sleep
durations performed and either the successful handle or the raised error. -/
def callGo (rateDelay maxRetries : ℕ) (outcomes : ℕ → Attempt) :
    ℕ → Option String → ℕ → List ℕ × Except String String
  | _, lastErr, 0 => ([], .error (exhaustMsg maxRetries lastErr))
  | attempt, _, fuel + 1 =>
    match outcomes attempt with
    | .ok v => ([], .ok v)
    | .err e =>
      if isRateLimitError e then
        let r := callGo rateDelay maxRetries outcomes (attempt + 1) (some e) fuel
        (rateDelay :: r.1, r.2)
      else if attempt < maxRetries then
        let r := callGo rateDelay maxRetries outcomes (attempt + 1) (some e) fuel
        (2 ^ attempt :: r.1, r.2)
      else ([], .error e)

/-- `ReplicateClient._call_with_retry`: at most `maxRetries` attempts,
starting the attempt counter at 1. -/
def call_with_retry (rateDelay maxRetries : ℕ) (outcomes : ℕ → Attempt) :
    List ℕ × Except String String :=
  callGo rateDelay maxRetries outcomes 1 none maxRetries

/-- Loop body of `BaseAsyncReplicateClient._create_prediction_with_retry`:
same backoff schedule, but it sleeps only when another attempt remains and
returns `none` (not an exception) on exhaustion. -/
def createGo (rateDelay maxRetries : ℕ) (outcomes : ℕ → Attempt) :
    ℕ → ℕ → List ℕ × Option String
  | _, 0 => ([], none)
  | attempt, fuel + 1 =>
    match outcomes attempt with
    | .ok v => ([], some v)
    | .err e =>
      let w := if isRateLimitError e then rateDelay else 2 ^ attempt
      if attempt < maxRetries then
        let r := createGo rateDelay maxRetries outcomes (attempt + 1) fuel
        (w :: r.1, r.2)
      else ([], none)

/-- `BaseAsyncReplicateClient._create_prediction_with_retry`. -/
def create_prediction_with_retry (rateDelay maxRetries : ℕ)
    (outcomes : ℕ → Attempt) : List ℕ × Option String :=
  createGo rateDelay maxRetries outcomes 1 maxRetries

/-! ## Polling loop (AsyncReplicateClient._poll_prediction) -/

/-- One snapshot of the remote prediction as seen after a reload. -/
structure PredSnapshot where
  status : String
  output : PyVal
  error : Option String

/-- How one poll iteration's `prediction.reload()` goes: a fresh snapshot,
or a raised exception. -/
abbrev PollEvent := Except String PredSnapshot

/-- Terminal outcomes of the poll loop.  `finished` carries the result of
URL extraction after a `succeeded` status (which may itself be `none`);
`pending` marks exhaustion of the supplied event list, i.e. the loop would
keep polling. -/
inductive PollOutcome where
  | timeout
  | reloadError (e : String)
  | finished (url : Option String)
  | predictionFailed (providerError : Option String)
  | canceled
  | pending
deriving DecidableEq, Repr

/-- Loop body of `AsyncReplicateClient._poll_prediction`.  `elapsed` is the
wall-clock time since the loop started (the sleeps of `pollInterval`
seconds are the modelled time source); the timeout check runs at the top of
every iteration, before the reload. -/
def pollGo (maxWait pollInterval : ℕ) : ℕ → List PollEvent → PollOutcome
  | elapsed, events =>
    if maxWait < elapsed then .timeout
    else
      match events with
      | [] => .pending
      | .error e :: _ => .reloadError e
      | .ok snap :: rest =>
        if snap.status = "succeeded" then .finished (extract_output_url snap.output)
        else if snap.status = "failed" then .predictionFailed snap.error
        else if snap.status = "canceled" then .canceled
        else pollGo maxWait pollInterval (elapsed + pollInterval) rest

/-- `AsyncReplicateClient._poll_prediction`, started at elapsed time 0. -/
def poll_prediction (maxWait pollInterval : ℕ) (events : List PollEvent) :
    PollOutcome :=
  pollGo maxWait pollInterval 0 events

/-! ## YAML value model and dictionary operations -/

/-- Values appearing in a parsed profile YAML document.  Numbers are exact
(`PyNum`); `b` is a YAML boolean (Python `bool`, a subclass of `int`). -/
inductive YVal where
  | s (v : String)
  | n (v : PyNum)
  | b (v : Bool)
  | dict (kvs : List (String × YVal))
  | list (vs : List YVal)
  | null

/-- Python dictionaries with string keys, as insertion-ordered
association lists (keys unique by construction of the operations). -/
abbrev PyDict := List (String × YVal)

/-- Python `d.get(k)` / `d[k]`. -/
def dictGet (d : PyDict) (k : String) : Option YVal :=
  (d.find? (fun kv => kv.1 = k)).map (fun kv => kv.2)

/-- Python `k in d`. -/
def dictHasKey (d : PyDict) (k : String) : Bool :=
  (d.find? (fun kv => kv.1 = k)).isSome

/-- Python `d[k] = v`: replace in place if the key exists, else append. -/
def dictSet : PyDict → String → YVal → PyDict
  | [], k, v => [(k, v)]
  | (k0, v0) :: rest, k, v =>
    if k0 = k then (k, v) :: rest else (k0, v0) :: dictSet rest k v

/-- Python `isinstance(v, (int, float))` view of a YAML value (booleans are
ints in Python). -/
def YVal.numVal : YVal → Option PyNum
  | .n v => some v
  | .b v => some (pyOfInt (if v then 1 else 0))
  | _ => none

/-- Python `int(v)`: truncate numbers toward zero, parse integer literals
from strings, reject everything else. -/
def pyToIntVal : YVal → Option ℤ
  | .n v => some (pyTruncInt v)
  | .b v => some (if v then 1 else 0)
  | .s v => v.toInt?
  | _ => none

/-! ## Profile validation (src/processing/profile_validator.py) and
loading (src/processing/profile_loader.py) -/

/-- `ProfileValidator.validate_section`: the section must be present and
every required field must be present in it. -/
def validate_section (pd : PyDict) (sectionName : String)
    (requiredFields : List String) : Except String PyDict :=
  match dictGet pd sectionName with
  | none => .error s!"Profile is missing {sectionName} section"
  | some (.dict sec) =>
    match requiredFields.find? (fun f => (dictGet sec f).isNone) with
    | some f => .error s!"Profile is missing {sectionName}.{f} field"
    | none => .ok sec
  | some _ => .error s!"Profile section {sectionName} is not a mapping"

/-- `ProfileValidator.validate_model_section`. -/
def validate_model_section (pd : PyDict) : Except String PyDict :=
  validate_section pd "Model" ["endpoint"]

/-- `ProfileValidator.validate_pricing_section`: only presence of the
section and of at least one pricing field is checked; the field values are
not inspected. -/
def validate_pricing_section (pd : PyDict) : Except String PyDict :=
  match dictGet pd "pricing" with
  | none => .error "Profile is missing pricing section"
  | some (.dict pricing) =>
    if ["cost_per_frame", "cost_per_second", "cost_per_prediction"].any
        (fun f => (dictGet pricing f).isSome) then
      .ok pricing
    else
      .error "Profile must have at least one pricing field"
  | some _ => .error "Profile pricing section is not a mapping"

/-- `ProfileValidator.validate_duration_section`: the five duration fields
live at the top level of the profile document. -/
def validate_duration_section (pd : PyDict) : Except String DurationConfig :=
  match ["duration_type", "fps", "duration_min", "duration_max",
      "duration_param_name"].find? (fun f => (dictGet pd f).isNone) with
  | some f => .error s!"Profile is missing required field {f}"
  | none =>
    let dtOk : Option String :=
      match dictGet pd "duration_type" with
      | some (.s dt) => if dt = "frames" || dt = "seconds" then some dt else none
      | _ => none
    match dtOk with
    | none => .error "Profile has invalid duration_type"
    | some dt =>
      match (dictGet pd "fps").bind pyToIntVal with
      | none => .error "Profile has invalid fps value"
      | some fps =>
        if fps ≤ 0 then .error s!"fps must be positive, got {fps}"
        else
          match (dictGet pd "duration_min").bind pyToIntVal,
              (dictGet pd "duration_max").bind pyToIntVal with
          | some dmin, some dmax =>
            if dmin < 0 then .error s!"duration_min must be non-negative, got {dmin}"
            else if dmax ≤ 0 then .error s!"duration_max must be positive, got {dmax}"
            else if dmax < dmin then
              .error "duration_min cannot be greater than duration_max"
            else
              match dictGet pd "duration_param_name" with
              | some (.s pn) =>
                if pn = "" then .error "Profile has invalid duration_param_name"
                else .ok ⟨dt, fps, dmin, dmax, pn⟩
              | _ => .error "Profile has invalid duration_param_name"
          | _, _ => .error "Profile has invalid duration limits"

/-- `ProfileValidator.validate_params_section`: only presence is checked;
the value is returned as-is. -/
def validate_params_section (pd : PyDict) : Except String YVal :=
  match dictGet pd "params" with
  | none => .error "Profile is missing params section"
  | some v => .ok v

/-- The profile dictionary built by `load_single_profile`. -/
structure LoadedProfile where
  name : String
  model_id : YVal
  nickname : YVal
  pricing : PyDict
  parameters : YVal
  duration_config : DurationConfig

/-- `load_single_profile` (validation and assembly; YAML parsing and file
IO are the excluded collaborator).  `profileName` is the file stem. -/
def load_single_profile (profileName : String) (pd : PyDict) :
    Except String LoadedProfile :=
  match validate_model_section pd with
  | .error e => .error e
  | .ok modelSec =>
    match validate_pricing_section pd with
    | .error e => .error e
    | .ok pricing =>
      match validate_duration_section pd with
      | .error e => .error e
      | .ok durationCfg =>
        match validate_params_section pd with
        | .error e => .error e
        | .ok params =>
          .ok { name := profileName
                model_id := (dictGet modelSec "endpoint").getD .null
                nickname := (dictGet modelSec "code-nickname").getD (.s profileName)
                pricing := pricing
                parameters := params
                duration_config := durationCfg }

/-! ## Cost calculation (src/processing/cost_calculator.py) -/

/-- `_validate_numeric_field` message (quotes around names elided). -/
def invalidFieldMsg (fieldName profileName : String) : String :=
  s!"Profile {profileName} has invalid {fieldName}"

/-- `calculate_video_cost`: look up `cost_per_second`, validate it
defensively, multiply by the video duration and round to 4 decimals.
The duration argument is whatever value the caller passed
(`video_duration_seconds`); a non-numeric value is a `TypeError` at the
multiplication. -/
def calculate_video_cost (p : LoadedProfile) (video_duration : YVal) :
    Except String PyNum :=
  match dictGet p.pricing "cost_per_second" with
  | some cps =>
    match cps.numVal with
    | some q =>
      if pyLt q (pyOfInt 0) then .error (invalidFieldMsg "cost_per_second" p.name)
      else
        match video_duration.numVal with
        | some d => .ok (roundTo4 (pyMul q d))
        | none => .error "TypeError: unsupported operand type"
    | none => .error (invalidFieldMsg "cost_per_second" p.name)
  | none => .error "Profile must have cost_per_second in pricing section"

/-- `calculate_cost_from_params`: read the duration value out of the
request parameters (falling back to the raw frame count), convert frames
to whole seconds by `int(value / fps)` when the profile is frame-based,
then price it. -/
def calculate_cost_from_params (p : LoadedProfile) (params : PyDict)
    (num_frames : ℤ) : Except String PyNum :=
  let vd : YVal :=
    (dictGet params p.duration_config.duration_param_name).getD
      (.n (pyOfInt num_frames))
  if p.duration_config.duration_type = "frames" then
    match vd.numVal with
    | some q =>
      calculate_video_cost p
        (.n (pyOfInt (pyTruncInt (pyDivQ q (pyOfInt p.duration_config.fps)))))
    | none => .error "TypeError: unsupported operand type"
  else
    calculate_video_cost p vd

/-! ## Prompt modifications (processor._apply_prompt_modifications) -/

/-- `_apply_prompt_modifications`, on character lists.  The Python guard
`if prefix and prefix.strip():` is equivalent to the stripped prefix being
non-empty (a string with a non-empty strip is itself non-empty), and
likewise for the suffix. -/
def applyPromptModsL (prompt0 : List Char) (preO sufO : Option (List Char)) :
    Except String (List Char) :=
  let p1 := stripChars prompt0
  let p2 :=
    match preO with
    | none => p1
    | some pre =>
      if (stripChars pre).isEmpty then p1
      else if p1.isEmpty then stripChars pre
      else stripChars pre ++ ' ' :: p1
  let p3 :=
    match sufO with
    | none => p2
    | some suf =>
      if (stripChars suf).isEmpty then p2
      else if p2.isEmpty then stripChars suf
      else p2 ++ ' ' :: stripChars suf
  let p4 := joinSpace (pyWords p3)
  if p4.isEmpty then .error "Final prompt is empty after applying modifications"
  else .ok p4

/-- `_apply_prompt_modifications` on strings. -/
def apply_prompt_modifications (prompt : String) (pre suf : Option String) :
    Except String String :=
  match applyPromptModsL prompt.data (pre.map String.data) (suf.map String.data) with
  | .error e => .error e
  | .ok l => .ok (String.mk l)

/-! ## Matrix orchestrator (processor._process_all_videos) -/

/-- A parsed markdown job, reduced to what the orchestrator bookkeeping
touches (the markdown file name used in adjustment records). -/
structure MJob where
  name : String
deriving DecidableEq, Repr

/-- A profile as the orchestrator sees it: its name and the optional
`custom_input_path` key (absent on profiles built by the loader). -/
structure OrchProfile where
  name : String
  customInputPath : Option String
deriving DecidableEq, Repr

/-- What `_process_single_video` produces for one matrix cell: the cell's
cost and its duration-adjustment info. -/
structure CellOutcome where
  cost : PyNum
  info : AdjInfo

/-- The behaviour of `_process_single_video` on each (profile, job) cell:
a cost and adjustment record, or a raised exception. -/
abbrev CellFun := OrchProfile → MJob → Except String CellOutcome

/-- Rational addition (for the running `total_cost`). -/
def pyAdd (a b : PyNum) : PyNum :=
  pynorm (a.num * b.den + b.num * a.den) (a.den * b.den)

/-- Python truthiness of `adjustment_info.get("reason")`. -/
def reasonTruthy : Option String → Bool
  | some r => r ≠ ""
  | none => false

/-- `jobs_by_path.get(profile.get("custom_input_path", default_key), [])`:
the job list the orchestrator iterates for one profile.  The default key
that the code passes in is the string of the OUTPUT directory. -/
def jobsForProfile (jobsByPath : List (String × List MJob)) (defaultKey : String)
    (p : OrchProfile) : List MJob :=
  match jobsByPath.find? (fun kv => kv.1 = p.customInputPath.getD defaultKey) with
  | some kv => kv.2
  | none => []

/-- Running totals of `_process_all_videos`. -/
structure OrchAcc where
  success : ℕ
  cost : PyNum
  adjustments : List (String × String × AdjInfo)

/-- One attempted cell in the processing trace: profile name, job name and
the cell's outcome (successful cells have written their files by then). -/
abbrev CellTrace := List (String × String × Except String CellOutcome)

/-- Inner loop of `_process_all_videos` over one profile's jobs: runs cells
in order, accumulating successes, costs and adjustment records, stopping at
(and re-raising) the first error.  Also returns the trace of attempted
cells. -/
def processJobsGo (cell : CellFun) (p : OrchProfile) :
    OrchAcc → List MJob → CellTrace × Except String OrchAcc
  | acc, [] => ([], .ok acc)
  | acc, j :: rest =>
    match cell p j with
    | .error e => ([(p.name, j.name, .error e)], .error e)
    | .ok o =>
      let acc2 : OrchAcc :=
        { success := acc.success + 1
          cost := pyAdd acc.cost o.cost
          adjustments := acc.adjustments ++
            (if reasonTruthy o.info.reason then [(j.name, p.name, o.info)] else []) }
      let r := processJobsGo cell p acc2 rest
      ((p.name, j.name, .ok o) :: r.1, r.2)

/-- Outer loop of `_process_all_videos` over the active profiles. -/
def processProfilesGo (cell : CellFun) (jobsByPath : List (String × List MJob))
    (defaultKey : String) :
    OrchAcc → List OrchProfile → CellTrace × Except String OrchAcc
  | acc, [] => ([], .ok acc)
  | acc, p :: ps =>
    let jr := processJobsGo cell p acc (jobsForProfile jobsByPath defaultKey p)
    match jr.2 with
    | .error e => (jr.1, .error e)
    | .ok acc2 =>
      let rr := processProfilesGo cell jobsByPath defaultKey acc2 ps
      (jr.1 ++ rr.1, rr.2)

/-- The `total` computed by `_process_all_videos` (and `process_matrix`):
all discovered jobs, over every input path, times the number of active
profiles. -/
def matrixTotal (jobsByPath : List (String × List MJob))
    (profiles : List OrchProfile) : ℕ :=
  (jobsByPath.map (fun kv => kv.2.length)).sum * profiles.length

/-- `_process_all_videos`: the reported total together with the processing
trace and the final accounting (or the propagated error). -/
def process_all_videos (cell : CellFun) (jobsByPath : List (String × List MJob))
    (profiles : List OrchProfile) (defaultKey : String) :
    ℕ × CellTrace × Except String OrchAcc :=
  ⟨matrixTotal jobsByPath profiles,
   processProfilesGo cell jobsByPath defaultKey ⟨0, pyOfInt 0, []⟩ profiles⟩

/-- The sequence of matrix cells in the orchestrator's processing order:
profiles outer, that profile's jobs inner. -/
def cellSeq (jobsByPath : List (String × List MJob)) (defaultKey : String)
    (profiles : List OrchProfile) : List (OrchProfile × MJob) :=
  profiles.flatMap (fun p => (jobsForProfile jobsByPath defaultKey p).map (fun j => (p, j)))

/-! ## Parameter preparation (processor._prepare_generation_params),
with an explicit heap so that mutation is observable -/

/-- A heap of live Python dictionaries; addresses are list indices and
allocation appends. -/
abbrev Heap := List PyDict

/-- `_prepare_generation_params` against a heap: the profile's
`parameters` dict lives at `pAddr`; `.copy()` allocates a fresh dict, and
both writes (the duration value and, when the original parameters declared
an `fps` key, the fps) go to the copy. -/
def prepare_generation_params (h : Heap) (pAddr : ℕ) (cfg : DurationConfig)
    (num_frames : ℤ) : Except String (Heap × ℕ × AdjInfo) :=
  let orig := h.getD pAddr []
  let h1 := h ++ [orig]
  let cAddr := h.length
  match process_duration num_frames cfg with
  | .error e => .error e
  | .ok dres =>
    let h2 := h1.set cAddr
      (dictSet (h1.getD cAddr []) cfg.duration_param_name (.n (pyOfInt dres.value)))
    let h3 :=
      if dictHasKey orig "fps" then
        h2.set cAddr (dictSet (h2.getD cAddr []) "fps" (.n (pyOfInt cfg.fps)))
      else h2
    .ok (h3, cAddr, dres.info)

/-- Terminal outcomes of `PollingThread.run` (src/api/polling_handler.py):
on success it stores the raw prediction output; a failed or canceled
status, a reload error and a timeout all just end the thread. -/
inductive ThreadOutcome where
  | timeout
  | reloadError (e : String)
  | gotResult (output : PyVal)
  | failedOrCanceled
  | pending

/-- Loop body of `PollingThread.run`: same wall-clock ceiling and
terminal-status checks as the synchronous poll loop, but the output is
stored raw (no URL extraction) and failed/canceled are not told apart. -/
def pollThreadGo (maxWait pollInterval : ℕ) : ℕ → List PollEvent → ThreadOutcome
  | elapsed, events =>
    if maxWait < elapsed then .timeout
    else
      match events with
      | [] => .pending
      | .error e :: _ => .reloadError e
      | .ok snap :: rest =>
        if snap.status = "succeeded" then .gotResult snap.output
        else if snap.status = "failed" ∨ snap.status = "canceled" then .failedOrCanceled
        else pollThreadGo maxWait pollInterval (elapsed + pollInterval) rest

/-- The attempt schedule used to pin down `C2_retry_backoff`: two
non-rate-limit failures, then success. -/
def twoFailsThenOk : ℕ → Attempt := fun n =>
  if n = 1 then .err "boom1" else if n = 2 then .err "boom2" else .ok "handle"

/-- An attempt schedule that always hits the rate limiter. -/
def alwaysRateLimited : ℕ → Attempt := fun _ => .err "HTTP 429"

/-- A seconds-based profile priced at 0.05 USD/s, for the C6 example. -/
def nickelProfile : LoadedProfile :=
  { name := "nickel"
    model_id := .s "m"
    nickname := .s "nickel"
    pricing := [("cost_per_second", .n ⟨1, 20⟩)]
    parameters := .dict []
    duration_config := ⟨"seconds", 24, 1, 20, "duration"⟩ }

/-- A profile document with a negative cost_per_second; every validator
accepts it. -/
def negCostProfileData : PyDict :=
  [("Model", .dict [("endpoint", .s "m")]),
   ("pricing", .dict [("cost_per_second", .n ⟨-1, 1⟩)]),
   ("duration_type", .s "seconds"),
   ("fps", .n ⟨24, 1⟩),
   ("duration_min", .n ⟨1, 1⟩),
   ("duration_max", .n ⟨10, 1⟩),
   ("duration_param_name", .s "duration"),
   ("params", .dict [])]

/-- The profile the loader builds from `negCostProfileData`. -/
def negCostProfile : LoadedProfile :=
  { name := "neg_cost"
    model_id := .s "m"
    nickname := .s "neg_cost"
    pricing := [("cost_per_second", .n ⟨-1, 1⟩)]
    parameters := .dict []
    duration_config := ⟨"seconds", 24, 1, 10, "duration"⟩ }

/-- One success step of the orchestrator's bookkeeping. -/
def accStep (acc : OrchAcc) (p : OrchProfile) (j : MJob) (o : CellOutcome) : OrchAcc :=
  { success := acc.success + 1
    cost := pyAdd acc.cost o.cost
    adjustments := acc.adjustments ++
      (if reasonTruthy o.info.reason then [(j.name, p.name, o.info)] else []) }

/-- The two nested orchestrator loops, flattened over an explicit cell
sequence. -/
def runCells (cell : CellFun) :
    OrchAcc → List (OrchProfile × MJob) → CellTrace × Except String OrchAcc
  | acc, [] => ([], .ok acc)
  | acc, (p, j) :: rest =>
    match cell p j with
    | .error e => ([(p.name, j.name, .error e)], .error e)
    | .ok o =>
      let r := runCells cell (accStep acc p j o) rest
      ((p.name, j.name, .ok o) :: r.1, r.2)

/-- Count of successful cells in a trace. -/
def countOkCells (t : CellTrace) : ℕ :=
  (t.filter (fun x => x.2.2.isOk)).length

/-- Two jobs discovered under one input path, for the C4 scenario. -/
def witJobsByPath : List (String × List MJob) := [("in", [⟨"j1"⟩, ⟨"j2"⟩])]

/-- Two profiles reading from that path, for the C4 scenario. -/
def witProfiles : List OrchProfile := [⟨"p1", some "in"⟩, ⟨"p2", some "in"⟩]

/-- Cell behaviour for the C4 scenario: the third cell of the processing
order (profile p2, job j1) raises; every other cell succeeds at cost 1. -/
def witCell : CellFun := fun p j =>
  if p.name = "p2" ∧ j.name = "j1" then .error "cell boom"
  else .ok ⟨pyOfInt 1, .frames 1 1 none⟩

/-- The first two cells of the C4 scenario's processing order. -/
def witPre : List (OrchProfile × MJob) :=
  [(⟨"p1", some "in"⟩, ⟨"j1"⟩), (⟨"p1", some "in"⟩, ⟨"j2"⟩)]

/-! ## Supporting lemmas -/

/-- Characterization of `ceilDiv` as the ceiling of the exact quotient:
for b > 0, `ceilDiv a b` is the least integer q with a ≤ b * q. -/
theorem ceilDiv_spec (a b : ℤ) (hb : 0 < b) :
    a ≤ b * ceilDiv a b ∧ b * ceilDiv a b - b < a := by
  have hq := Int.ediv_add_emod (-a) b
  have hr0 : 0 ≤ -a % b := Int.emod_nonneg (-a) (by omega)
  have hrb : -a % b < b := Int.emod_lt_of_pos (-a) hb
  have hfd : (-a).fdiv b = -a / b := Int.fdiv_eq_ediv (-a) (le_of_lt hb)
  unfold ceilDiv
  rw [hfd]
  constructor <;> nlinarith [hq, hr0, hrb]

/-- `ceilDiv_spec` pinned at a concrete input. -/
theorem ceilDiv_spec_witness :
    50 ≤ 30 * ceilDiv 50 30 ∧ 30 * ceilDiv 50 30 - 30 < 50 :=
  ceilDiv_spec 50 30 (by decide)

/-- The frame-based clamp, written as the spec does (clamp into [min,max],
with a reason exactly when the value moved). -/
theorem processFrameDuration_clamp (fc mn mx : ℤ) (h : mn ≤ mx) :
    processFrameDuration fc mn mx =
      { value := max mn (min mx fc)
        was_adjusted := decide (fc < mn ∨ mx < fc)
        info := .frames fc (max mn (min mx fc))
          (if fc < mn then some s!"Below minimum ({mn})"
           else if mx < fc then some s!"Exceeded maximum ({mx})"
           else none) } := by
  unfold processFrameDuration
  rcases lt_trichotomy fc mn with h1 | h1 | h1
  · have hv : max mn (min mx fc) = mn := by
      have : min mx fc = fc := min_eq_right (by omega)
      rw [this]; exact max_eq_left (by omega)
    rw [if_pos h1, hv, if_pos h1]
    simp [h1]
  · subst h1
    have h2 : ¬ fc < fc := lt_irrefl fc
    have h3 : ¬ mx < fc := not_lt.mpr h
    have hv : max fc (min mx fc) = fc := by
      have : min mx fc = fc := min_eq_right h
      rw [this]; exact max_self fc
    rw [if_neg h2, if_neg h3, hv, if_neg h2, if_neg h3]
    simp [h2, h3]
  · have h2 : ¬ fc < mn := by omega
    by_cases h3 : mx < fc
    · have hv : max mn (min mx fc) = mx := by
        have : min mx fc = mx := min_eq_left (by omega)
        rw [this]; exact max_eq_right h
      rw [if_neg h2, if_pos h3, hv, if_neg h2, if_pos h3]
      simp [h2, h3]
    · have hv : max mn (min mx fc) = fc := by
        have : min mx fc = fc := min_eq_right (by omega)
        rw [this]; exact max_eq_right (by omega)
      rw [if_neg h2, if_neg h3, hv, if_neg h2, if_neg h3]
      simp [h2, h3]

/-- The seconds-based version: ceiling conversion first, then the same
clamp. -/
theorem processSecondsDuration_clamp (fc fps mn mx : ℤ) (h : mn ≤ mx) :
    processSecondsDuration fc fps mn mx =
      { value := max mn (min mx (ceilDiv fc fps))
        was_adjusted := decide (ceilDiv fc fps < mn ∨ mx < ceilDiv fc fps)
        info := .seconds fc (ceilDiv fc fps) (max mn (min mx (ceilDiv fc fps))) fps
          (if ceilDiv fc fps < mn then some s!"Below minimum ({mn} seconds)"
           else if mx < ceilDiv fc fps then some s!"Exceeded maximum ({mx} seconds)"
           else none) } := by
  unfold processSecondsDuration
  set s0 := ceilDiv fc fps with hs0
  rcases lt_trichotomy s0 mn with h1 | h1 | h1
  · have hv : max mn (min mx s0) = mn := by
      have : min mx s0 = s0 := min_eq_right (by omega)
      rw [this]; exact max_eq_left (by omega)
    rw [if_pos h1, hv, if_pos h1]
    simp [h1]
  · have h2 : ¬ s0 < mn := by omega
    have h3 : ¬ mx < s0 := by omega
    have hv : max mn (min mx s0) = s0 := by
      have : min mx s0 = s0 := min_eq_right (by omega)
      rw [this]; exact max_eq_right (by omega)
    rw [if_neg h2, if_neg h3, hv, if_neg h2, if_neg h3]
    simp [h2, h3]
  · have h2 : ¬ s0 < mn := by omega
    by_cases h3 : mx < s0
    · have hv : max mn (min mx s0) = mx := by
        have : min mx s0 = mx := min_eq_left (by omega)
        rw [this]; exact max_eq_right h
      rw [if_neg h2, if_pos h3, hv, if_neg h2, if_pos h3]
      simp [h2, h3]
    · have hv : max mn (min mx s0) = s0 := by
        have : min mx s0 = s0 := min_eq_right (by omega)
        rw [this]; exact max_eq_right (by omega)
      rw [if_neg h2, if_neg h3, hv, if_neg h2, if_neg h3]
      simp [h2, h3]

/-- Claim C1: duration normalization honors its full contract.  For a
'frames' rule the frame count is clamped into [min, max], with a
"Below minimum (N)" reason when below, an "Exceeded maximum (N)" reason
when above, and no reason otherwise; for a 'seconds' rule the frame count
is first converted with ceil(frame_count / fps) and then clamped the same
way, with the pre-conversion frame count and the pre- and post-clamp
second counts recorded in the info record; any other duration type is an
error, never a silent default. -/
theorem C1_duration_normalization
    (fcF fcS fcX : ℤ) (cfgF cfgS cfgX : DurationConfig)
    (hF : cfgF.duration_type = "frames")
    (hFmm : cfgF.duration_min ≤ cfgF.duration_max)
    (hS : cfgS.duration_type = "seconds")
    (hSmm : cfgS.duration_min ≤ cfgS.duration_max)
    (hX1 : cfgX.duration_type ≠ "frames")
    (hX2 : cfgX.duration_type ≠ "seconds") :
    process_duration fcF cfgF = .ok
      { value := max cfgF.duration_min (min cfgF.duration_max fcF)
        was_adjusted := decide (fcF < cfgF.duration_min ∨ cfgF.duration_max < fcF)
        info := .frames fcF (max cfgF.duration_min (min cfgF.duration_max fcF))
          (if fcF < cfgF.duration_min then
            some s!"Below minimum ({cfgF.duration_min})"
           else if cfgF.duration_max < fcF then
            some s!"Exceeded maximum ({cfgF.duration_max})"
           else none) }
    ∧ process_duration fcS cfgS = .ok
      { value := max cfgS.duration_min (min cfgS.duration_max (ceilDiv fcS cfgS.fps))
        was_adjusted := decide (ceilDiv fcS cfgS.fps < cfgS.duration_min ∨
          cfgS.duration_max < ceilDiv fcS cfgS.fps)
        info := .seconds fcS (ceilDiv fcS cfgS.fps)
          (max cfgS.duration_min (min cfgS.duration_max (ceilDiv fcS cfgS.fps)))
          cfgS.fps
          (if ceilDiv fcS cfgS.fps < cfgS.duration_min then
            some s!"Below minimum ({cfgS.duration_min} seconds)"
           else if cfgS.duration_max < ceilDiv fcS cfgS.fps then
            some s!"Exceeded maximum ({cfgS.duration_max} seconds)"
           else none) }
    ∧ process_duration fcX cfgX =
        .error s!"Invalid duration_type: {cfgX.duration_type}" := by
  refine ⟨?_, ?_, ?_⟩
  · unfold process_duration
    rw [if_pos hF, processFrameDuration_clamp fcF _ _ hFmm]
  · unfold process_duration
    rw [if_neg (by rw [hS]; decide), if_pos hS,
      processSecondsDuration_clamp fcS _ _ _ hSmm]
  · unfold process_duration
    rw [if_neg hX1, if_neg hX2]

/-- `C1_duration_normalization` pinned at concrete inputs: a frame rule
[10,100] at frame count 5 clamps up to 10, a seconds rule at 50 frames and
30 fps converts to 2 seconds and clamps up to 3, and a bogus type fails. -/
theorem C1_duration_normalization_witness :
    process_duration 5 ⟨"frames", 24, 10, 100, "num_frames"⟩ = .ok
      { value := max 10 (min 100 5)
        was_adjusted := decide ((5:ℤ) < 10 ∨ (100:ℤ) < 5)
        info := .frames 5 (max 10 (min 100 5))
          (if (5:ℤ) < 10 then some s!"Below minimum ({(10:ℤ)})"
           else if (100:ℤ) < 5 then some s!"Exceeded maximum ({(100:ℤ)})"
           else none) }
    ∧ process_duration 50 ⟨"seconds", 30, 3, 10, "duration"⟩ = .ok
      { value := max 3 (min 10 (ceilDiv 50 30))
        was_adjusted := decide (ceilDiv 50 30 < 3 ∨ 10 < ceilDiv 50 30)
        info := .seconds 50 (ceilDiv 50 30) (max 3 (min 10 (ceilDiv 50 30))) 30
          (if ceilDiv 50 30 < 3 then some s!"Below minimum ({(3:ℤ)} seconds)"
           else if 10 < ceilDiv 50 30 then some s!"Exceeded maximum ({(10:ℤ)} seconds)"
           else none) }
    ∧ process_duration 7 ⟨"bogus", 1, 1, 2, "d"⟩ =
        .error "Invalid duration_type: bogus" :=
  C1_duration_normalization 5 50 7
    ⟨"frames", 24, 10, 100, "num_frames"⟩ ⟨"seconds", 30, 3, 10, "duration"⟩
    ⟨"bogus", 1, 1, 2, "d"⟩ rfl (by decide) rfl (by decide) (by decide) (by decide)

/-- Claim C5: both URL extractors normalize the four documented output
shapes (bare string, url-attribute object, singleton list of either) to the
same URL; any other object is accepted through string coercion only when
its rendering starts with "http"; and a succeeded poll whose output yields
no usable URL produces `finished none` - no URL despite the remote
success. -/
theorem C5_url_extraction :
    extract_output_url (.str "http://x") = some "http://x"
    ∧ extract_output_url (.urlObj "http://x") = some "http://x"
    ∧ extract_output_url (.list [.str "http://x"]) = some "http://x"
    ∧ extract_output_url (.list [.urlObj "http://x"]) = some "http://x"
    ∧ parse_video_response (.str "http://x") = some (.str "http://x")
    ∧ parse_video_response (.urlObj "http://x") = some (.str "http://x")
    ∧ parse_video_response (.list [.str "http://x"]) = some (.str "http://x")
    ∧ parse_video_response (.list [.urlObj "http://x"]) = some (.str "http://x")
    ∧ (∀ r : String, extract_output_url (.other r) =
        if "http".data.isPrefixOf r.data then some r else none)
    ∧ (∀ r : String, parse_video_response (.other r) =
        if "http".data.isPrefixOf r.data then some (.str r) else none)
    ∧ (∀ m i : ℕ, ∀ rest : List PollEvent,
        pollGo m i 0 (.ok ⟨"succeeded", .other "<video object>", none⟩ :: rest) =
          .finished none) := by
  refine ⟨rfl, rfl, rfl, rfl, rfl, rfl, rfl, rfl, fun r => rfl, fun r => rfl, ?_⟩
  intro m i rest
  rw [pollGo]
  rw [if_neg (Nat.not_lt_zero m)]
  rfl

/-- The sync retry loop only looks at the outcomes of attempts 1..maxRetries. -/
theorem callGo_congr (d m : ℕ) (out1 out2 : ℕ → Attempt)
    (h : ∀ n, 1 ≤ n → n ≤ m → out1 n = out2 n) :
    ∀ fuel attempt lastErr, attempt + fuel = m + 1 → 1 ≤ attempt →
      callGo d m out1 attempt lastErr fuel = callGo d m out2 attempt lastErr fuel := by
  intro fuel
  induction fuel with
  | zero => intro attempt lastErr _ _; rfl
  | succ f ih =>
    intro attempt lastErr hinv h1
    have hle : attempt ≤ m := by omega
    have heq : out1 attempt = out2 attempt := h attempt h1 hle
    simp only [callGo, heq]
    cases h2 : out2 attempt with
    | ok v => rfl
    | err e =>
      by_cases hrl : isRateLimitError e = true
      · simp only [hrl, if_true]
        rw [ih (attempt + 1) (some e) (by omega) (by omega)]
      · simp only [Bool.not_eq_true] at hrl
        simp only [hrl, Bool.false_eq_true, if_false]
        by_cases hlt2 : attempt < m
        · simp only [hlt2, if_true]
          rw [ih (attempt + 1) (some e) (by omega) (by omega)]
        · simp only [hlt2, if_false]

/-- The async retry loop only looks at the outcomes of attempts
1..maxRetries. -/
theorem createGo_congr (d m : ℕ) (out1 out2 : ℕ → Attempt)
    (h : ∀ n, 1 ≤ n → n ≤ m → out1 n = out2 n) :
    ∀ fuel attempt, attempt + fuel = m + 1 → 1 ≤ attempt →
      createGo d m out1 attempt fuel = createGo d m out2 attempt fuel := by
  intro fuel
  induction fuel with
  | zero => intro attempt _ _; rfl
  | succ f ih =>
    intro attempt hinv h1
    have hle : attempt ≤ m := by omega
    have heq : out1 attempt = out2 attempt := h attempt h1 hle
    simp only [createGo, heq]
    cases h2 : out2 attempt with
    | ok v => rfl
    | err e =>
      by_cases hlt2 : attempt < m
      · simp only [hlt2, if_true]
        rw [ih (attempt + 1) (by omega) (by omega)]
      · simp only [hlt2, if_false]

/-- Claim C2: a submission failing on attempt n with a non-rate-limit
error waits exactly 2^n seconds before attempt n+1, a rate-limited failure
waits the fixed rate-limit delay instead, at most maxRetries attempts are
made, and the concrete spec scenario (two non-rate failures then success)
waits 2s then 4s and returns the successful handle - in both the sync and
the async retry loop. -/
theorem C2_retry_backoff
    (d m attempt fuel : ℕ) (lastA lastB : Option String)
    (outA out outB : ℕ → Attempt) (a b v e eR : String)
    (hA1 : outA 1 = .err a) (hA2 : outA 2 = .err b) (hA3 : outA 3 = .ok v)
    (hra : isRateLimitError a = false) (hrb : isRateLimitError b = false)
    (he : out attempt = .err e) (hner : isRateLimitError e = false)
    (hlt : attempt < m)
    (heR : outB attempt = .err eR) (hr : isRateLimitError eR = true) :
    call_with_retry d 3 outA = ([2, 4], .ok v)
    ∧ create_prediction_with_retry d 3 outA = ([2, 4], some v)
    ∧ callGo d m out attempt lastA (fuel + 1) =
        (2 ^ attempt :: (callGo d m out (attempt + 1) (some e) fuel).1,
         (callGo d m out (attempt + 1) (some e) fuel).2)
    ∧ callGo d m outB attempt lastB (fuel + 1) =
        (d :: (callGo d m outB (attempt + 1) (some eR) fuel).1,
         (callGo d m outB (attempt + 1) (some eR) fuel).2)
    ∧ createGo d m out attempt (fuel + 1) =
        (2 ^ attempt :: (createGo d m out (attempt + 1) fuel).1,
         (createGo d m out (attempt + 1) fuel).2)
    ∧ createGo d m outB attempt (fuel + 1) =
        (d :: (createGo d m outB (attempt + 1) fuel).1,
         (createGo d m outB (attempt + 1) fuel).2)
    ∧ (∀ out1 out2 : ℕ → Attempt, (∀ n, 1 ≤ n → n ≤ m → out1 n = out2 n) →
        call_with_retry d m out1 = call_with_retry d m out2
        ∧ create_prediction_with_retry d m out1 = create_prediction_with_retry d m out2) := by
  refine ⟨?_, ?_, ?_, ?_, ?_, ?_, ?_⟩
  · unfold call_with_retry
    norm_num [callGo, hA1, hA2, hA3, hra, hrb]
  · unfold create_prediction_with_retry
    norm_num [createGo, hA1, hA2, hA3, hra, hrb]
  · simp only [callGo, he, hner, Bool.false_eq_true, if_false, hlt, if_true]
  · simp only [callGo, heR, hr, if_true]
  · simp only [createGo, he, hner, Bool.false_eq_true, if_false, hlt, if_true]
  · simp only [createGo, heR, hr, if_true, hlt]
  · intro out1 out2 h12
    constructor
    · unfold call_with_retry
      exact callGo_congr d m out1 out2 h12 m 1 none (by omega) le_rfl
    · unfold create_prediction_with_retry
      exact createGo_congr d m out1 out2 h12 m 1 (by omega) le_rfl

/-- `C2_retry_backoff` pinned at concrete inputs (delay 60s, 3 retries). -/
theorem C2_retry_backoff_witness :
    call_with_retry 60 3 twoFailsThenOk = ([2, 4], .ok "handle")
    ∧ create_prediction_with_retry 60 3 twoFailsThenOk = ([2, 4], some "handle")
    ∧ callGo 60 3 twoFailsThenOk 1 none (1 + 1) =
        (2 ^ 1 :: (callGo 60 3 twoFailsThenOk (1 + 1) (some "boom1") 1).1,
         (callGo 60 3 twoFailsThenOk (1 + 1) (some "boom1") 1).2)
    ∧ callGo 60 3 alwaysRateLimited 1 none (1 + 1) =
        (60 :: (callGo 60 3 alwaysRateLimited (1 + 1) (some "HTTP 429") 1).1,
         (callGo 60 3 alwaysRateLimited (1 + 1) (some "HTTP 429") 1).2)
    ∧ createGo 60 3 twoFailsThenOk 1 (1 + 1) =
        (2 ^ 1 :: (createGo 60 3 twoFailsThenOk (1 + 1) 1).1,
         (createGo 60 3 twoFailsThenOk (1 + 1) 1).2)
    ∧ createGo 60 3 alwaysRateLimited 1 (1 + 1) =
        (60 :: (createGo 60 3 alwaysRateLimited (1 + 1) 1).1,
         (createGo 60 3 alwaysRateLimited (1 + 1) 1).2)
    ∧ (∀ out1 out2 : ℕ → Attempt, (∀ n, 1 ≤ n → n ≤ 3 → out1 n = out2 n) →
        call_with_retry 60 3 out1 = call_with_retry 60 3 out2
        ∧ create_prediction_with_retry 60 3 out1 = create_prediction_with_retry 60 3 out2) :=
  C2_retry_backoff 60 3 1 1 none none twoFailsThenOk twoFailsThenOk
    alwaysRateLimited "boom1" "boom2" "handle" "boom1" "HTTP 429"
    (by decide) (by decide) (by decide) (by decide) (by decide)
    (by decide) (by decide) (by decide) (by decide) (by decide)

/-- With every attempt failing, the sync loop's result is an error. -/
theorem callGo_all_err (d m : ℕ) (out : ℕ → Attempt)
    (hfail : ∀ n, ∃ e, out n = .err e) :
    ∀ fuel attempt lastErr, ∃ msg, (callGo d m out attempt lastErr fuel).2 = .error msg := by
  intro fuel
  induction fuel with
  | zero => intro attempt lastErr; exact ⟨exhaustMsg m lastErr, rfl⟩
  | succ f ih =>
    intro attempt lastErr
    obtain ⟨e, he⟩ := hfail attempt
    simp only [callGo, he]
    by_cases hrl : isRateLimitError e = true
    · simp only [hrl, if_true]
      exact ih (attempt + 1) (some e)
    · simp only [Bool.not_eq_true] at hrl
      simp only [hrl, Bool.false_eq_true, if_false]
      by_cases hlt : attempt < m
      · simp only [hlt, if_true]
        exact ih (attempt + 1) (some e)
      · simp only [hlt, if_false]
        exact ⟨e, rfl⟩

/-- With every attempt failing, the async loop's result is `none`. -/
theorem createGo_all_err (d m : ℕ) (out : ℕ → Attempt)
    (hfail : ∀ n, ∃ e, out n = .err e) :
    ∀ fuel attempt, (createGo d m out attempt fuel).2 = none := by
  intro fuel
  induction fuel with
  | zero => intro attempt; rfl
  | succ f ih =>
    intro attempt
    obtain ⟨e, he⟩ := hfail attempt
    simp only [createGo, he]
    by_cases hlt : attempt < m
    · simp only [hlt, if_true]
      exact ih (attempt + 1)
    · simp only [hlt, if_false]

/-- Claim C8 counterexample: when every attempt fails with a non-rate-limit
error, `BaseAsyncReplicateClient._create_prediction_with_retry` does NOT
raise - it returns `None` (after backoff sleeps of 2s and 4s), which its
caller passes on as a falsy success value. -/
theorem C8_counterexample :
    create_prediction_with_retry 60 3 (fun _ => .err "boom") = ([2, 4], none) := by
  decide

/-- Claim C8 (amended): when all attempts fail, the synchronous
`ReplicateClient._call_with_retry` raises a terminal error, but the async
`_create_prediction_with_retry` returns `None` instead of raising. -/
theorem C8_submission_exhaustion (d m : ℕ) (out : ℕ → Attempt)
    (hfail : ∀ n, ∃ e, out n = .err e) :
    (∃ msg, (call_with_retry d m out).2 = .error msg)
    ∧ (create_prediction_with_retry d m out).2 = none := by
  constructor
  · exact callGo_all_err d m out hfail m 1 none
  · exact createGo_all_err d m out hfail m 1

/-- `C8_submission_exhaustion` pinned at a concrete input. -/
theorem C8_submission_exhaustion_witness :
    (∃ msg, (call_with_retry 1 2 (fun _ => .err "x")).2 = .error msg)
    ∧ (create_prediction_with_retry 1 2 (fun _ => .err "x")).2 = none :=
  C8_submission_exhaustion 1 2 (fun _ => .err "x") (fun _ => ⟨"x", rfl⟩)

/-- One-step unfolding of the poll loop. -/
theorem pollGo_eq (m i e : ℕ) (evs : List PollEvent) :
    pollGo m i e evs =
      if m < e then .timeout
      else
        match evs with
        | [] => .pending
        | .error er :: _ => .reloadError er
        | .ok snap :: rest =>
          if snap.status = "succeeded" then .finished (extract_output_url snap.output)
          else if snap.status = "failed" then .predictionFailed snap.error
          else if snap.status = "canceled" then .canceled
          else pollGo m i (e + i) rest := by
  rw [pollGo.eq_def]

/-- Past the ceiling, the loop exits with a timeout whatever the events. -/
theorem pollGo_timeout (m i e : ℕ) (evs : List PollEvent) (h : m < e) :
    pollGo m i e evs = .timeout := by
  rw [pollGo_eq, if_pos h]

/-- The poll loop never consumes an event beyond the wall-clock ceiling:
its result only depends on the first (m - elapsed) / i + 1 events. -/
theorem pollGo_take (m i : ℕ) (hi : 1 ≤ i) :
    ∀ (evs : List PollEvent) (elapsed : ℕ),
      pollGo m i elapsed evs =
        pollGo m i elapsed (evs.take ((m - elapsed) / i + 1)) := by
  intro evs
  induction evs with
  | nil => intro elapsed; rw [List.take_nil]
  | cons x xs ih =>
    intro elapsed
    by_cases h : m < elapsed
    · rw [pollGo_timeout m i elapsed _ h, pollGo_timeout m i elapsed _ h]
    · rw [List.take_succ_cons]
      rw [pollGo_eq m i elapsed (x :: xs), if_neg h]
      rw [pollGo_eq m i elapsed (x :: xs.take ((m - elapsed) / i)), if_neg h]
      cases x with
      | error er => rfl
      | ok snap =>
        by_cases hs1 : snap.status = "succeeded"
        · simp only [hs1, if_true]
        · simp only [hs1, if_false]
          by_cases hs2 : snap.status = "failed"
          · simp only [hs2, if_true]
          · simp only [hs2, if_false]
            by_cases hs3 : snap.status = "canceled"
            · simp only [hs3, if_true]
            · simp only [hs3, if_false]
              by_cases hstep : elapsed + i ≤ m
              · have harith : (m - elapsed) / i = (m - (elapsed + i)) / i + 1 := by
                  have hsub : m - (elapsed + i) = m - elapsed - i := by omega
                  rw [hsub]
                  exact Nat.div_eq_sub_div hi (by omega)
                rw [harith]
                exact ih (elapsed + i)
              · rw [pollGo_timeout m i (elapsed + i) _ (by omega),
                  pollGo_timeout m i (elapsed + i) _ (by omega)]

/-- Claim C3: the poll loop never runs past the wall-clock ceiling - once
elapsed time exceeds maxWait it times out regardless of the last status,
it stops immediately on a terminal status (succeeded/failed/canceled)
while under the ceiling, and from the start it can only ever consume
maxWait / pollInterval + 1 status reloads. -/
theorem C3_poll_ceiling (m i e1 e2 : ℕ) (evs : List PollEvent)
    (sS sF sC : PredSnapshot) (r1 r2 r3 : List PollEvent)
    (h1 : m < e1) (h2 : e2 ≤ m)
    (hS : sS.status = "succeeded") (hF : sF.status = "failed")
    (hC : sC.status = "canceled") (hi : 1 ≤ i) :
    pollGo m i e1 evs = .timeout
    ∧ pollGo m i e2 (.ok sS :: r1) = .finished (extract_output_url sS.output)
    ∧ pollGo m i e2 (.ok sF :: r2) = .predictionFailed sF.error
    ∧ pollGo m i e2 (.ok sC :: r3) = .canceled
    ∧ poll_prediction m i evs = poll_prediction m i (evs.take (m / i + 1))
    ∧ pollThreadGo m i e1 evs = .timeout
    ∧ pollThreadGo m i e2 (.ok sS :: r1) = .gotResult sS.output
    ∧ pollThreadGo m i e2 (.ok sF :: r2) = .failedOrCanceled
    ∧ pollThreadGo m i e2 (.ok sC :: r3) = .failedOrCanceled := by
  refine ⟨pollGo_timeout m i e1 evs h1, ?_, ?_, ?_, ?_, ?_, ?_, ?_, ?_⟩
  · rw [pollGo_eq, if_neg (not_lt.mpr h2)]
    simp only [hS, if_true]
  · rw [pollGo_eq, if_neg (not_lt.mpr h2)]
    simp only [hF]
    rfl
  · rw [pollGo_eq, if_neg (not_lt.mpr h2)]
    simp only [hC]
    rfl
  · unfold poll_prediction
    have h := pollGo_take m i hi evs 0
    simpa using h
  · rw [pollThreadGo.eq_def]
    dsimp only
    rw [if_pos h1]
  · rw [pollThreadGo.eq_def]
    dsimp only
    rw [if_neg (not_lt.mpr h2), if_pos hS]
  · rw [pollThreadGo.eq_def]
    dsimp only
    rw [if_neg (not_lt.mpr h2), if_neg (by rw [hF]; decide), if_pos (Or.inl hF)]
  · rw [pollThreadGo.eq_def]
    dsimp only
    rw [if_neg (not_lt.mpr h2), if_neg (by rw [hC]; decide), if_pos (Or.inr hC)]

/-- `C3_poll_ceiling` pinned at concrete inputs (ceiling 10s, interval 3s). -/
theorem C3_poll_ceiling_witness :
    pollGo 10 3 11 [] = .timeout
    ∧ pollGo 10 3 0 (.ok ⟨"succeeded", .str "http://x", none⟩ :: []) =
        .finished (extract_output_url (PyVal.str "http://x"))
    ∧ pollGo 10 3 0 (.ok ⟨"failed", .none_, some "boom"⟩ :: []) =
        .predictionFailed (some "boom")
    ∧ pollGo 10 3 0 (.ok ⟨"canceled", .none_, none⟩ :: []) = .canceled
    ∧ poll_prediction 10 3 [] = poll_prediction 10 3 ([].take (10 / 3 + 1))
    ∧ pollThreadGo 10 3 11 [] = .timeout
    ∧ pollThreadGo 10 3 0 (.ok ⟨"succeeded", .str "http://x", none⟩ :: []) =
        .gotResult (PyVal.str "http://x")
    ∧ pollThreadGo 10 3 0 (.ok ⟨"failed", .none_, some "boom"⟩ :: []) =
        .failedOrCanceled
    ∧ pollThreadGo 10 3 0 (.ok ⟨"canceled", .none_, none⟩ :: []) =
        .failedOrCanceled :=
  C3_poll_ceiling 10 3 11 0 [] ⟨"succeeded", .str "http://x", none⟩
    ⟨"failed", .none_, some "boom"⟩ ⟨"canceled", .none_, none⟩ [] [] []
    (by decide) (by decide) rfl rfl rfl (by decide)

/-- Python `int(d / fps)` on a nonnegative integer d and positive fps is
floor division. -/
theorem pyDiv_trunc_eq_fdiv (d fps : ℤ) (hd : 0 ≤ d) (hfps : 0 < fps) :
    pyTruncInt (pyDivQ (pyOfInt d) (pyOfInt fps)) = d.fdiv fps := by
  unfold pyDivQ pyOfInt pyTruncInt pynorm
  simp only [mul_one, one_mul]
  rw [if_neg (not_lt.mpr (le_of_lt hfps))]
  simp only [one_mul]
  set g : ℤ := (Int.gcd d fps : ℤ) with hg
  have hgnn : 0 ≤ g := Int.ofNat_nonneg _
  have hgne : g ≠ 0 := by
    simp only [hg]
    intro hcast
    have : Int.gcd d fps = 0 := by exact_mod_cast hcast
    rw [Int.gcd_eq_zero_iff] at this
    omega
  have hgpos : 0 < g := lt_of_le_of_ne hgnn (Ne.symm hgne)
  rw [if_neg hgne]
  have hdg : g ∣ d := Int.gcd_dvd_left
  have hfg : g ∣ fps := Int.gcd_dvd_right
  obtain ⟨A, hA⟩ := hdg
  obtain ⟨B, hB⟩ := hfg
  have hApos : 0 ≤ A := by
    by_contra hneg
    push_neg at hneg
    have hlt : g * A < 0 := mul_neg_of_pos_of_neg hgpos hneg
    rw [hA] at hd
    linarith
  have hBpos : 0 < B := by
    by_contra hneg
    push_neg at hneg
    have hle : g * B ≤ 0 := mul_nonpos_of_nonneg_of_nonpos hgnn hneg
    rw [hB] at hfps
    linarith
  simp only [hA, hB]
  rw [Int.mul_tdiv_cancel_left A (ne_of_gt hgpos),
    Int.mul_tdiv_cancel_left B (ne_of_gt hgpos)]
  rw [Int.tdiv_eq_ediv hApos (le_of_lt hBpos)]
  rw [Int.fdiv_eq_ediv _ (by positivity)]
  rw [Int.mul_ediv_mul_of_pos A B hgpos]

/-- Claim C6: for a profile whose request parameters carry the normalized
duration d under the profile's duration parameter name, the computed cost
is cost_per_second times the duration in seconds, rounded to 4 decimal
places, where the seconds are d divided by fps and floored for a 'frames'
rule and d itself for a 'seconds' rule. -/
theorem C6_cost_formula (p : LoadedProfile) (params : PyDict) (nf d : ℤ)
    (cps : PyNum)
    (hd : dictGet params p.duration_config.duration_param_name =
      some (.n (pyOfInt d)))
    (hcps : dictGet p.pricing "cost_per_second" = some (.n cps))
    (hpos : ¬ pyLt cps (pyOfInt 0))
    (hfps : 0 < p.duration_config.fps) (hdnn : 0 ≤ d) :
    calculate_cost_from_params p params nf =
      .ok (roundTo4 (pyMul cps
        (pyOfInt (if p.duration_config.duration_type = "frames"
          then d.fdiv p.duration_config.fps else d)))) := by
  unfold calculate_cost_from_params
  simp only [hd, Option.getD_some]
  by_cases ht : p.duration_config.duration_type = "frames"
  · simp only [ht, if_true, YVal.numVal]
    rw [pyDiv_trunc_eq_fdiv d _ hdnn hfps]
    unfold calculate_video_cost
    rw [hcps]
    simp only [YVal.numVal]
    rw [if_neg hpos]
  · simp only [ht, if_false]
    unfold calculate_video_cost
    rw [hcps]
    simp only [YVal.numVal]
    rw [if_neg hpos]

/-- `C6_cost_formula` pinned at the spec's example: 0.05 USD/s for 12
seconds prices at 0.60 USD. -/
theorem C6_cost_formula_witness :
    calculate_cost_from_params nickelProfile [("duration", .n (pyOfInt 12))] 0 =
      .ok (roundTo4 (pyMul ⟨1, 20⟩
        (pyOfInt (if nickelProfile.duration_config.duration_type = "frames"
          then (12:ℤ).fdiv nickelProfile.duration_config.fps else 12))))
    ∧ roundTo4 (pyMul ⟨1, 20⟩ (pyOfInt 12)) = ⟨3, 5⟩ :=
  ⟨C6_cost_formula nickelProfile [("duration", .n (pyOfInt 12))] 0 12 ⟨1, 20⟩
    rfl rfl (by decide) (by decide) (by decide),
   by decide⟩

/-- Claim C7 counterexample: a profile with cost_per_second = -1 passes
the profile loader's validation (the pricing validator only checks key
presence), and the cost calculator then raises on it at calculation
time - the calculator's non-negativity check is reachable for validated
profiles. -/
theorem C7_counterexample :
    load_single_profile "neg_cost" negCostProfileData = .ok negCostProfile
    ∧ calculate_video_cost negCostProfile (.n (pyOfInt 10)) =
        .error (invalidFieldMsg "cost_per_second" "neg_cost") :=
  ⟨rfl, rfl⟩

/-- Claim C7 (amended): profile validation does not inspect pricing
values - a pricing section containing any cost_per_second value at all is
accepted - so a loaded profile can carry a negative cost_per_second, and
for such a profile the calculator's defensive check is what raises, at
calculation time. -/
theorem C7_pricing_validation (pd : PyDict) (profileName : String)
    (prof : LoadedProfile) (q : PyNum) (dv v0 : YVal)
    (hload : load_single_profile profileName pd = .ok prof)
    (hcps : dictGet prof.pricing "cost_per_second" = some (.n q))
    (hneg : pyLt q (pyOfInt 0)) :
    calculate_video_cost prof dv =
      .error (invalidFieldMsg "cost_per_second" prof.name)
    ∧ validate_pricing_section [("pricing", .dict [("cost_per_second", v0)])] =
        .ok [("cost_per_second", v0)] := by
  constructor
  · unfold calculate_video_cost
    rw [hcps]
    simp only [YVal.numVal]
    rw [if_pos hneg]
  · rfl

/-- `C7_pricing_validation` pinned at the negative-cost profile. -/
theorem C7_pricing_validation_witness :
    calculate_video_cost negCostProfile (.n (pyOfInt 10)) =
      .error (invalidFieldMsg "cost_per_second" negCostProfile.name)
    ∧ validate_pricing_section
        [("pricing", .dict [("cost_per_second", .n ⟨-1, 1⟩)])] =
        .ok [("cost_per_second", .n ⟨-1, 1⟩)] :=
  C7_pricing_validation negCostProfileData "neg_cost" negCostProfile ⟨-1, 1⟩
    (.n (pyOfInt 10)) (.n ⟨-1, 1⟩) rfl rfl (by decide)

/-- Reading below the allocation point is unaffected by the appended copy. -/
theorem heap_getD_append_lt (h : Heap) (d : PyDict) (b : ℕ) (hb : b < h.length) :
    (h ++ [d]).getD b [] = h.getD b [] := by
  rw [List.getD_eq_getElem?_getD, List.getD_eq_getElem?_getD,
    List.getElem?_append, if_pos hb]

/-- Claim C10: `_prepare_generation_params` never mutates the profile.
The copy is allocated fresh (at the top of the heap), every pre-existing
dictionary - in particular the profile's `parameters` at `pAddr` - is
unchanged, and the returned parameters are exactly the original mapping
plus the duration value (and fps when the original parameters declared
one). -/
theorem C10_no_profile_mutation (h : Heap) (pAddr : ℕ) (cfg : DurationConfig)
    (nf : ℤ) (h3 : Heap) (cAddr : ℕ) (info : AdjInfo) (dres : DurationResult)
    (hp : pAddr < h.length)
    (hdur : process_duration nf cfg = .ok dres)
    (hres : prepare_generation_params h pAddr cfg nf = .ok (h3, cAddr, info)) :
    cAddr = h.length
    ∧ h3.length = h.length + 1
    ∧ (∀ b, b < h.length → h3.getD b [] = h.getD b [])
    ∧ h3.getD pAddr [] = h.getD pAddr []
    ∧ info = dres.info
    ∧ h3.getD cAddr [] =
        (let base := dictSet (h.getD pAddr []) cfg.duration_param_name
          (.n (pyOfInt dres.value))
         if dictHasKey (h.getD pAddr []) "fps" then
           dictSet base "fps" (.n (pyOfInt cfg.fps))
         else base) := by
  simp only [prepare_generation_params, hdur] at hres
  set orig := h.getD pAddr [] with horig
  set L := h.length with hL
  have hgetL : (h ++ [orig]).getD L [] = orig := by
    rw [List.getD_eq_getElem?_getD, hL, List.getElem?_concat_length]
    rfl
  set X1 := dictSet ((h ++ [orig]).getD L []) cfg.duration_param_name
    (.n (pyOfInt dres.value)) with hX1
  have hlen1 : ((h ++ [orig]).set L X1).length = h.length + 1 := by
    simp
  have hgetL2 : ((h ++ [orig]).set L X1).getD L [] = X1 := by
    rw [List.getD_eq_getElem?_getD, List.getElem?_set_self (by simp [hL])]
    rfl
  set X2 := dictSet (((h ++ [orig]).set L X1).getD L []) "fps"
    (.n (pyOfInt cfg.fps)) with hX2
  simp only [Except.ok.injEq, Prod.mk.injEq] at hres
  obtain ⟨hh3, hca, hinfo⟩ := hres
  have hbelow : ∀ b, b < h.length → h3.getD b [] = h.getD b [] := by
    intro b hb
    rw [← hh3]
    by_cases hfps : dictHasKey orig "fps" = true
    · rw [if_pos hfps]
      rw [List.getD_eq_getElem?_getD,
        List.getElem?_set_ne (show L ≠ b by omega),
        List.getElem?_set_ne (show L ≠ b by omega),
        List.getElem?_append, if_pos hb,
        ← List.getD_eq_getElem?_getD]
    · rw [if_neg hfps]
      rw [List.getD_eq_getElem?_getD,
        List.getElem?_set_ne (show L ≠ b by omega),
        List.getElem?_append, if_pos hb,
        ← List.getD_eq_getElem?_getD]
  refine ⟨hca.symm, ?_, hbelow, hbelow pAddr hp, hinfo.symm, ?_⟩
  · rw [← hh3]
    by_cases hfps : dictHasKey orig "fps" = true
    · rw [if_pos hfps]
      simp [hlen1]
    · rw [if_neg hfps]
      exact hlen1
  · rw [← hh3, ← hca]
    by_cases hfps : dictHasKey orig "fps" = true
    · rw [if_pos hfps]
      have hset2 : (((h ++ [orig]).set L X1).set L X2).getD L [] = X2 := by
        rw [List.getD_eq_getElem?_getD, List.getElem?_set_self (by simp [hL])]
        rfl
      rw [hset2, hX2, hgetL2, hX1, hgetL]
      rw [horig] at hfps
      simp only [hfps, if_true]
    · rw [if_neg hfps]
      rw [hgetL2, hX1, hgetL]
      rw [horig] at hfps
      simp only [hfps, Bool.false_eq_true, if_false]

/-- `C10_no_profile_mutation` pinned at a concrete heap: one profile
parameters dict with an fps key, frame rule [1,100] at 30 frames. -/
theorem C10_no_profile_mutation_witness :
    (1:ℕ) = [[("fps", YVal.n ⟨24, 1⟩)]].length
    ∧ (prepare_generation_params [[("fps", YVal.n ⟨24, 1⟩)]] 0
        ⟨"frames", 24, 1, 100, "num_frames"⟩ 30).isOk = true := by
  constructor
  · decide
  · have h := C10_no_profile_mutation [[("fps", YVal.n ⟨24, 1⟩)]] 0
      ⟨"frames", 24, 1, 100, "num_frames"⟩ 30
      ([[("fps", YVal.n ⟨24, 1⟩)],
        [("fps", YVal.n (pyOfInt 24)), ("num_frames", YVal.n (pyOfInt 30))]]) 1
      (.frames 30 30 none) ⟨30, false, .frames 30 30 none⟩
      (by decide) rfl rfl
    rfl

/-- The inner job loop is `runCells` over that profile's cells. -/
theorem processJobsGo_eq_runCells (cell : CellFun) (p : OrchProfile) :
    ∀ (jobs : List MJob) (acc : OrchAcc),
      processJobsGo cell p acc jobs = runCells cell acc (jobs.map (fun j => (p, j))) := by
  intro jobs
  induction jobs with
  | nil => intro acc; rfl
  | cons j rest ih =>
    intro acc
    simp only [processJobsGo, List.map_cons, runCells]
    cases cell p j with
    | error e => rfl
    | ok o =>
      simp only [accStep]
      rw [ih]

/-- Composition of `runCells` over an appended cell sequence. -/
theorem runCells_append (cell : CellFun) :
    ∀ (a b : List (OrchProfile × MJob)) (acc : OrchAcc),
      runCells cell acc (a ++ b) =
        (match runCells cell acc a with
         | (t, .error e) => (t, .error e)
         | (t, .ok acc2) =>
           (t ++ (runCells cell acc2 b).1, (runCells cell acc2 b).2)) := by
  intro a
  induction a with
  | nil => intro b acc; rfl
  | cons x rest ih =>
    intro b acc
    obtain ⟨p, j⟩ := x
    simp only [List.cons_append, runCells, List.append_eq]
    cases cell p j with
    | error e => rfl
    | ok o =>
      dsimp only
      rw [ih b (accStep acc p j o)]
      cases hres : runCells cell (accStep acc p j o) rest with
      | mk t r2 =>
        cases r2 with
        | error e => rfl
        | ok acc2 => simp only [List.cons_append]

/-- The whole orchestrator run is `runCells` over the flattened cell
sequence. -/
theorem processProfilesGo_eq_runCells (cell : CellFun)
    (jobsByPath : List (String × List MJob)) (defaultKey : String) :
    ∀ (profiles : List OrchProfile) (acc : OrchAcc),
      processProfilesGo cell jobsByPath defaultKey acc profiles =
        runCells cell acc (cellSeq jobsByPath defaultKey profiles) := by
  intro profiles
  induction profiles with
  | nil => intro acc; rfl
  | cons p ps ih =>
    intro acc
    simp only [processProfilesGo, cellSeq, List.flatMap_cons]
    rw [processJobsGo_eq_runCells cell p _ acc]
    rw [runCells_append cell _ _ acc]
    cases hres : runCells cell acc
        ((jobsForProfile jobsByPath defaultKey p).map (fun j => (p, j))) with
    | mk t r2 =>
      cases r2 with
      | error e => rfl
      | ok acc2 =>
        simp only
        rw [ih acc2]
        rw [← cellSeq]

/-- Fail-fast split: if every cell before position k succeeds and the k-th
cell raises, `runCells` attempts exactly the first k+1 cells, records the
k successes in order, and propagates the error. -/
theorem runCells_split (cell : CellFun) (e : String) (c : OrchProfile × MJob)
    (he : cell c.1 c.2 = .error e) :
    ∀ (pre post : List (OrchProfile × MJob)) (acc : OrchAcc),
      (∀ x ∈ pre, ∃ o, cell x.1 x.2 = .ok o) →
      runCells cell acc (pre ++ c :: post) =
        (pre.map (fun x => (x.1.name, x.2.name, cell x.1 x.2)) ++
          [(c.1.name, c.2.name, .error e)], .error e) := by
  intro pre
  induction pre with
  | nil =>
    intro post acc _
    obtain ⟨p, j⟩ := c
    simp only [List.nil_append, runCells, List.map_nil]
    simp only at he
    rw [he]
  | cons x rest ih =>
    intro post acc hok
    obtain ⟨p, j⟩ := x
    obtain ⟨o, ho⟩ := hok (p, j) (List.mem_cons_self _ _)
    simp only at ho
    simp only [List.cons_append, runCells, ho, List.map_cons, List.append_eq]
    rw [ih post (accStep acc p j o) (fun y hy => hok y (List.mem_cons_of_mem _ hy))]

/-- Claim C4: the orchestrator reports total = J x P (all discovered jobs
times all profiles), processes the matrix cells in a stable
profile-major order, and is fail-fast: if the (k+1)-st cell of that order
raises while all earlier cells succeed, exactly the k earlier successes
(with their outcomes) are recorded, the failing cell is the last one
attempted, and the error propagates. -/
theorem C4_matrix_fail_fast (cell : CellFun)
    (jobsByPath : List (String × List MJob)) (defaultKey defaultKey2 : String)
    (profiles profiles2 : List OrchProfile) (jobs : List MJob)
    (pre post : List (OrchProfile × MJob)) (c : OrchProfile × MJob) (e : String)
    (hseq : cellSeq jobsByPath defaultKey profiles = pre ++ c :: post)
    (hpre : ∀ x ∈ pre, ∃ o, cell x.1 x.2 = .ok o)
    (he : cell c.1 c.2 = .error e) :
    (process_all_videos cell jobsByPath profiles defaultKey).1 =
      (jobsByPath.map (fun kv => kv.2.length)).sum * profiles.length
    ∧ (process_all_videos cell [(defaultKey2, jobs)] profiles2 defaultKey2).1 =
        jobs.length * profiles2.length
    ∧ (process_all_videos cell jobsByPath profiles defaultKey).2.1 =
        pre.map (fun x => (x.1.name, x.2.name, cell x.1 x.2)) ++
          [(c.1.name, c.2.name, .error e)]
    ∧ (process_all_videos cell jobsByPath profiles defaultKey).2.2 = .error e
    ∧ countOkCells (process_all_videos cell jobsByPath profiles defaultKey).2.1 =
        pre.length := by
  have hrun : (process_all_videos cell jobsByPath profiles defaultKey).2 =
      (pre.map (fun x => (x.1.name, x.2.name, cell x.1 x.2)) ++
        [(c.1.name, c.2.name, .error e)], .error e) := by
    show processProfilesGo cell jobsByPath defaultKey ⟨0, pyOfInt 0, []⟩ profiles = _
    rw [processProfilesGo_eq_runCells, hseq]
    exact runCells_split cell e c he pre post _ hpre
  refine ⟨rfl, ?_, ?_, ?_, ?_⟩
  · show matrixTotal [(defaultKey2, jobs)] profiles2 = _
    simp [matrixTotal]
  · rw [hrun]
  · rw [hrun]
  · rw [hrun]
    unfold countOkCells
    rw [List.filter_append, List.length_append]
    have h1 : (pre.map (fun x => (x.1.name, x.2.name, cell x.1 x.2))).filter
        (fun x => x.2.2.isOk) = pre.map (fun x => (x.1.name, x.2.name, cell x.1 x.2)) := by
      rw [List.filter_eq_self]
      intro a ha
      obtain ⟨x, hx, hax⟩ := List.mem_map.mp ha
      obtain ⟨o, ho⟩ := hpre x hx
      rw [← hax]
      simp only [ho]
      rfl
    have h2 : ([((c.1.name, c.2.name, Except.error e) :
        String × String × Except String CellOutcome)]).filter
          (fun x => x.2.2.isOk) = [] := rfl
    rw [h1, h2]
    simp

/-- `C4_matrix_fail_fast` pinned at the spec's example: 2 jobs x 2
profiles, the third cell fails, so total = 4, exactly 2 successes are
recorded, the third cell is the last one attempted and the error
propagates. -/
theorem C4_matrix_fail_fast_witness :
    (process_all_videos witCell witJobsByPath witProfiles "out").1 =
      (witJobsByPath.map (fun kv => kv.2.length)).sum * witProfiles.length
    ∧ (process_all_videos witCell [("d", [⟨"j1"⟩, ⟨"j2"⟩])] witProfiles "d").1 =
        ([⟨"j1"⟩, ⟨"j2"⟩] : List MJob).length * witProfiles.length
    ∧ (process_all_videos witCell witJobsByPath witProfiles "out").2.1 =
        witPre.map (fun x => (x.1.name, x.2.name, witCell x.1 x.2)) ++
          [((⟨"p2", some "in"⟩ : OrchProfile).name, (⟨"j1"⟩ : MJob).name,
            .error "cell boom")]
    ∧ (process_all_videos witCell witJobsByPath witProfiles "out").2.2 =
        .error "cell boom"
    ∧ countOkCells (process_all_videos witCell witJobsByPath witProfiles "out").2.1 =
        witPre.length :=
  C4_matrix_fail_fast witCell witJobsByPath "out" "d" witProfiles witProfiles
    [⟨"j1"⟩, ⟨"j2"⟩] witPre [(⟨"p2", some "in"⟩, ⟨"j2"⟩)]
    (⟨"p2", some "in"⟩, ⟨"j1"⟩) "cell boom" rfl
    (by
      intro x hx
      rcases List.mem_cons.mp hx with rfl | hx2
      · exact ⟨⟨pyOfInt 1, .frames 1 1 none⟩, rfl⟩
      · rcases List.mem_cons.mp hx2 with rfl | hx3
        · exact ⟨⟨pyOfInt 1, .frames 1 1 none⟩, rfl⟩
        · exact absurd hx3 (List.not_mem_nil x))
    rfl

/-- Splitting an all-whitespace tail yields no words beyond the current
one. -/
theorem wordsAux_all_space (t : List Char) (h : ∀ c ∈ t, pySpace c = true) :
    ∀ cur, wordsAux cur t = if cur.isEmpty then [] else [cur.reverse] := by
  induction t with
  | nil => intro cur; rfl
  | cons c cs ih =>
    intro cur
    have hc : pySpace c = true := h c (List.mem_cons_self _ _)
    have ihs := ih (fun x hx => h x (List.mem_cons_of_mem _ hx))
    simp only [wordsAux, hc, if_true]
    have hnil : wordsAux [] cs = [] := by simpa using ihs []
    cases hcur : cur.isEmpty
    · rw [if_neg (by simp [hcur]), if_neg (by simp [hcur]), hnil]
    · rw [if_pos (by simp [hcur]), if_pos (by simp [hcur]), hnil]

/-- A space splits the word stream. -/
theorem wordsAux_split (xs : List Char) :
    ∀ (cur ys : List Char),
      wordsAux cur (xs ++ ' ' :: ys) = wordsAux cur xs ++ wordsAux [] ys := by
  induction xs with
  | nil =>
    intro cur ys
    simp only [List.nil_append, wordsAux, show pySpace ' ' = true from rfl, if_true]
    cases hcur : cur.isEmpty
    · simp [wordsAux, hcur]
    · simp [wordsAux, hcur]
  | cons c cs ih =>
    intro cur ys
    simp only [List.cons_append, wordsAux, List.append_eq]
    cases hc : pySpace c
    · simp only [Bool.false_eq_true, if_false]
      exact ih (c :: cur) ys
    · simp only [if_true]
      cases hcur : cur.isEmpty
      · simp only [Bool.false_eq_true, if_false]
        rw [ih [] ys]
        simp
      · simp only [if_true]
        rw [ih [] ys]

/-- Leading whitespace never contributes words. -/
theorem wordsAux_dropWhile (s : List Char) :
    wordsAux [] (s.dropWhile pySpace) = wordsAux [] s := by
  induction s with
  | nil => rfl
  | cons c cs ih =>
    cases hc : pySpace c
    · rw [List.dropWhile_cons_of_neg (by simp [hc])]
    · rw [List.dropWhile_cons_of_pos (by simp [hc])]
      rw [ih]
      simp [wordsAux, hc]

/-- Trailing whitespace never contributes words. -/
theorem wordsAux_append_space (t : List Char) (h : ∀ c ∈ t, pySpace c = true) :
    ∀ (s cur : List Char), wordsAux cur (s ++ t) = wordsAux cur s := by
  intro s
  induction s with
  | nil =>
    intro cur
    rw [List.nil_append, wordsAux_all_space t h cur]
    rfl
  | cons c cs ih =>
    intro cur
    simp only [List.cons_append, wordsAux, List.append_eq]
    cases hc : pySpace c
    · simp only [Bool.false_eq_true, if_false]
      exact ih (c :: cur)
    · simp only [if_true]
      cases hcur : cur.isEmpty
      · simp only [Bool.false_eq_true, if_false]
        rw [ih []]
      · simp only [if_true]
        rw [ih []]

/-- Stripping does not change the word stream. -/
theorem pyWords_strip (s : List Char) : pyWords (stripChars s) = pyWords s := by
  unfold pyWords stripChars
  set u := s.dropWhile pySpace with hu
  have htrail : ∀ c ∈ (u.reverse.takeWhile pySpace).reverse, pySpace c = true := by
    intro c hc
    exact List.mem_takeWhile_imp (List.mem_reverse.mp hc)
  have hsplit : (u.reverse.dropWhile pySpace).reverse ++
      (u.reverse.takeWhile pySpace).reverse = u := by
    rw [← List.reverse_append, List.takeWhile_append_dropWhile, List.reverse_reverse]
  calc wordsAux [] (u.reverse.dropWhile pySpace).reverse
      = wordsAux [] ((u.reverse.dropWhile pySpace).reverse ++
          (u.reverse.takeWhile pySpace).reverse) := by
        rw [wordsAux_append_space _ htrail]
    _ = wordsAux [] u := by rw [hsplit]
    _ = wordsAux [] s := wordsAux_dropWhile s

/-- Starting with a non-empty current word, the splitter always emits
something. -/
theorem wordsAux_ne_nil_of_cur (s : List Char) :
    ∀ cur, cur ≠ [] → wordsAux cur s ≠ [] := by
  induction s with
  | nil =>
    intro cur hcur
    simp only [wordsAux]
    rw [if_neg (by simpa using hcur)]
    simp
  | cons c cs ih =>
    intro cur hcur
    simp only [wordsAux]
    cases hc : pySpace c
    · simp only [Bool.false_eq_true, if_false]
      exact ih (c :: cur) (by simp)
    · simp only [if_true]
      rw [if_neg (by simpa using hcur)]
      simp

/-- The word stream is empty exactly for all-whitespace input. -/
theorem pyWords_eq_nil_iff (s : List Char) :
    pyWords s = [] ↔ ∀ c ∈ s, pySpace c = true := by
  unfold pyWords
  induction s with
  | nil => simp [wordsAux]
  | cons c cs ih =>
    cases hc : pySpace c
    · simp only [wordsAux, hc, Bool.false_eq_true, if_false]
      constructor
      · intro h
        exact absurd h (wordsAux_ne_nil_of_cur cs [c] (by simp))
      · intro h
        have := h c (List.mem_cons_self _ _)
        simp [hc] at this
    · simp only [wordsAux, hc, if_true, List.isEmpty_nil, if_true]
      constructor
      · intro h x hx
        rcases List.mem_cons.mp hx with rfl | hx2
        · exact hc
        · exact (ih.mp h) x hx2
      · intro h
        exact ih.mpr (fun x hx => h x (List.mem_cons_of_mem _ hx))

/-- The strip is empty exactly when the word stream is. -/
theorem stripChars_eq_nil_iff (s : List Char) :
    stripChars s = [] ↔ pyWords s = [] := by
  constructor
  · intro h
    rw [← pyWords_strip s, h]
    rfl
  · intro h
    have hall : ∀ c ∈ s, pySpace c = true := (pyWords_eq_nil_iff s).mp h
    unfold stripChars
    rw [List.dropWhile_eq_nil_iff.mpr hall]
    rfl

/-- Every emitted word is non-empty. -/
theorem wordsAux_mem_ne_nil (s : List Char) :
    ∀ cur w, w ∈ wordsAux cur s → w ≠ [] := by
  induction s with
  | nil =>
    intro cur w hw
    simp only [wordsAux] at hw
    cases hcur : cur.isEmpty
    · rw [if_neg (by simp [hcur])] at hw
      rcases List.mem_singleton.mp hw with rfl
      simp only [ne_eq, List.reverse_eq_nil_iff]
      intro h
      rw [h] at hcur
      simp at hcur
    · rw [if_pos (by simp [hcur])] at hw
      exact absurd hw (List.not_mem_nil w)
  | cons c cs ih =>
    intro cur w hw
    simp only [wordsAux] at hw
    cases hc : pySpace c
    · rw [hc] at hw
      simp only [Bool.false_eq_true, if_false] at hw
      exact ih (c :: cur) w hw
    · rw [hc] at hw
      simp only [if_true] at hw
      cases hcur : cur.isEmpty
      · rw [if_neg (by simp [hcur])] at hw
        rcases List.mem_cons.mp hw with rfl | hw2
        · simp only [ne_eq, List.reverse_eq_nil_iff]
          intro h
          rw [h] at hcur
          simp at hcur
        · exact ih [] w hw2
      · rw [if_pos (by simp [hcur])] at hw
        exact ih [] w hw

/-- Joining non-empty words gives the empty string only for no words. -/
theorem joinSpace_eq_nil_iff (ws : List (List Char)) (h : ∀ w ∈ ws, w ≠ []) :
    joinSpace ws = [] ↔ ws = [] := by
  match ws with
  | [] => simp [joinSpace]
  | [w] =>
    simp only [joinSpace]
    constructor
    · intro hw
      exact absurd hw (h w (List.mem_singleton.mpr rfl))
    · intro hw
      exact absurd hw (by simp)
  | w :: w2 :: rest =>
    simp only [joinSpace]
    constructor
    · intro hw
      exact absurd hw (by simp)
    · intro hw
      exact absurd hw (by simp)

/-- Word stream of the prefix-combination step of
`_apply_prompt_modifications`. -/
theorem pyWords_pre_step (pre p1 : List Char) :
    pyWords (if (stripChars pre).isEmpty then p1
      else if p1.isEmpty then stripChars pre
      else stripChars pre ++ ' ' :: p1) = pyWords pre ++ pyWords p1 := by
  by_cases h1 : (stripChars pre).isEmpty = true
  · rw [if_pos h1]
    have : pyWords pre = [] :=
      (stripChars_eq_nil_iff pre).mp (by simpa using h1)
    rw [this, List.nil_append]
  · rw [if_neg h1]
    by_cases h2 : p1.isEmpty = true
    · rw [if_pos h2]
      have hp1 : p1 = [] := by simpa using h2
      rw [pyWords_strip pre, hp1]
      have : pyWords ([] : List Char) = [] := rfl
      rw [this, List.append_nil]
    · rw [if_neg h2]
      unfold pyWords
      rw [wordsAux_split (stripChars pre) [] p1]
      rw [show wordsAux [] (stripChars pre) = pyWords (stripChars pre) from rfl,
        pyWords_strip pre]
      rfl

/-- Word stream of the suffix-combination step of
`_apply_prompt_modifications`. -/
theorem pyWords_suf_step (suf p2 : List Char) :
    pyWords (if (stripChars suf).isEmpty then p2
      else if p2.isEmpty then stripChars suf
      else p2 ++ ' ' :: stripChars suf) = pyWords p2 ++ pyWords suf := by
  by_cases h1 : (stripChars suf).isEmpty = true
  · rw [if_pos h1]
    have : pyWords suf = [] :=
      (stripChars_eq_nil_iff suf).mp (by simpa using h1)
    rw [this, List.append_nil]
  · rw [if_neg h1]
    by_cases h2 : p2.isEmpty = true
    · rw [if_pos h2]
      have hp2 : p2 = [] := by simpa using h2
      rw [pyWords_strip suf, hp2]
      rfl
    · rw [if_neg h2]
      unfold pyWords
      rw [wordsAux_split p2 [] (stripChars suf)]
      rw [show wordsAux [] (stripChars suf) = pyWords (stripChars suf) from rfl,
        pyWords_strip suf]
      rfl

/-- Claim C9: for every job prompt and configured prefix/suffix, the
effective prompt is prefix + body + suffix with whitespace collapsed to
single spaces between the surviving words, and an empty or all-whitespace
result raises an error; concretely, prefix "A", body "B", suffix "C"
yields "A B C". -/
theorem C9_prompt_composition (prompt0 pre suf : List Char) :
    applyPromptModsL prompt0 (some pre) (some suf) =
      (if (pyWords pre ++ pyWords prompt0 ++ pyWords suf).isEmpty then
        .error "Final prompt is empty after applying modifications"
       else .ok (joinSpace (pyWords pre ++ pyWords prompt0 ++ pyWords suf)))
    ∧ apply_prompt_modifications "B" (some "A") (some "C") = .ok "A B C" := by
  constructor
  · have hp3 : pyWords
        (if (stripChars suf).isEmpty then
          (if (stripChars pre).isEmpty then stripChars prompt0
           else if (stripChars prompt0).isEmpty then stripChars pre
           else stripChars pre ++ ' ' :: stripChars prompt0)
         else if (if (stripChars pre).isEmpty then stripChars prompt0
           else if (stripChars prompt0).isEmpty then stripChars pre
           else stripChars pre ++ ' ' :: stripChars prompt0).isEmpty then stripChars suf
         else (if (stripChars pre).isEmpty then stripChars prompt0
           else if (stripChars prompt0).isEmpty then stripChars pre
           else stripChars pre ++ ' ' :: stripChars prompt0) ++ ' ' :: stripChars suf) =
        pyWords pre ++ pyWords prompt0 ++ pyWords suf := by
      rw [pyWords_suf_step suf _, pyWords_pre_step pre _, pyWords_strip prompt0]
    show (if (joinSpace (pyWords _)).isEmpty then _ else _) = _
    rw [hp3]
    have hwords : ∀ w ∈ pyWords pre ++ pyWords prompt0 ++ pyWords suf, w ≠ [] := by
      intro w hw
      rcases List.mem_append.mp hw with hw1 | hw3
      · rcases List.mem_append.mp hw1 with hw1a | hw1b
        · exact wordsAux_mem_ne_nil pre [] w hw1a
        · exact wordsAux_mem_ne_nil prompt0 [] w hw1b
      · exact wordsAux_mem_ne_nil suf [] w hw3
    by_cases ht : pyWords pre ++ pyWords prompt0 ++ pyWords suf = []
    · rw [ht]
      rfl
    · have hjoin : joinSpace (pyWords pre ++ pyWords prompt0 ++ pyWords suf) ≠ [] :=
        fun hj => ht ((joinSpace_eq_nil_iff _ hwords).mp hj)
      rw [if_neg (by simpa using hjoin), if_neg (by simpa using ht)]
  · rfl
